import Mathlib

/-!
Shallow embedding of the streaming conversation session manager of the
Become-AI browser client.  The definitions below are translated from
src/static/js/modules/chat.js (ChatManager), the ApiService part of
src/static/js/app.js (streamQuery and its EventSource callbacks), the
Utils module (storage wrapper, isValidUrl, generateId) and the constant
tables in src/static/js/modules/config.js.

Modelling conventions:
- Utils.generateId (a random base-36 string) is modelled by a fresh-id
  counter `nextId`; ids are opaque unique tokens in the source and the
  counter realises exactly that supply.
- Instants (JavaScript Date values) are modelled as natural numbers; the
  manager carries a model clock `now` that every `new Date()` call reads.
- localStorage under the single chat-history key is modelled by the
  `store` field; Utils.storage.set always succeeds in the model.
- The wire protocol of the streaming endpoint is modelled by `Frame`:
  the literal DONE marker, a frame whose payload fails JSON.parse, or a
  parsed JSON payload with optional `token` and `chunks` fields.
  JavaScript truthiness of `payload.token` means: field present and not
  the empty string.  Truthiness of `payload.chunks` means: field present.
- Event dispatch (EventTarget) is synchronous in the browser and in the
  model: ApiService events are folded into the ChatManager state at the
  point where the source emits them.
-/

/-- One retrieved-source citation carried by a metadata frame of the wire
protocol (an element of the payload's `chunks` array, with url and title). -/
structure Chunk where
  url : String
  title : String
deriving Repr, DecidableEq

/-- A chat message exactly as built by ChatManager.addMessage: id, role,
content, timestamp, isStreaming, metadata, type, plus the `completed` flag
that ChatManager.sendMessage's finalisation assigns onto the object. -/
structure Message where
  id : Nat
  role : String
  content : String
  timestamp : Nat
  isStreaming : Bool
  metadata : Option (List Chunk)
  type : String
  completed : Option Bool
deriving Repr, DecidableEq

/-- The record ChatManager.saveChatHistory writes to storage:
the last 100 messages plus the save instant. -/
structure SavedRecord where
  messages : List Message
  lastSaved : Nat
deriving Repr, DecidableEq

/-- State of the ChatManager singleton: the in-memory log, the typing flag
(the busy indicator), the reference held in currentStreamingMessage, the
id supply, the model clock, and the persisted storage slot. -/
structure ChatManager where
  messages : List Message
  isTyping : Bool
  currentStreamingMessage : Option Message
  nextId : Nat
  now : Nat
  store : Option SavedRecord
deriving Repr, DecidableEq

/-- A freshly constructed manager with no stored history. -/
def initChat : ChatManager :=
  { messages := [], isTyping := false, currentStreamingMessage := none,
    nextId := 0, now := 0, store := none }

/-- The record ChatManager.saveChatHistory persists: `messages.slice(-100)`
(the most recent at most 100 messages) and the save instant. -/
def savedRecord (cm : ChatManager) : SavedRecord :=
  { messages := cm.messages.drop (cm.messages.length - 100), lastSaved := cm.now }

/-- ChatManager.saveChatHistory: write the capped record to storage. -/
def saveChatHistory (cm : ChatManager) : ChatManager :=
  { cm with store := some (savedRecord cm) }

/-- The options bag accepted by ChatManager.addMessage; fields that the
source reads from it (timestamp, isStreaming, metadata, type).  For
`type`, none models an options object without the key (the
`options.type || 'message'` default then survives the trailing
`...options` spread), and `some t` models an object carrying the key,
whose value the spread writes onto the message verbatim — even when it is
falsy (`some ""` models an empty or undefined value).  For the other
fields the spread is indistinguishable from the `||` defaults at every
call site (Date values are always truthy, a falsy isStreaming is false,
falsy metadata collapses to none). -/
structure AddOpts where
  timestamp : Option Nat := none
  isStreaming : Bool := false
  metadata : Option (List Chunk) := none
  type : Option String := none
deriving Repr

/-- Whitespace as String.prototype.trim sees it (the characters that can
occur in this client's inputs). -/
def isSpaceChar (c : Char) : Bool := c = ' ' || c = '\t' || c = '\n' || c = '\r'

/-- String.prototype.trim: strip leading and trailing whitespace.  Written
over the character list so that proofs can evaluate it. -/
def jsTrim (s : String) : String :=
  ⟨((s.data.dropWhile isSpaceChar).reverse.dropWhile isSpaceChar).reverse⟩

/-- Prefix test over the character list (evaluable stand-in for
String.startsWith). -/
def jsStartsWith (s p : String) : Bool := s.data.take p.data.length = p.data

/-- ChatManager.addMessage: build the message record with a fresh id,
push it onto the log and persist.  Returns the message like the source
does.  The type field is `options.type || 'message'` followed by the
trailing `...options` spread: an options object carrying the type key has
its value written verbatim (falsy included), only an absent key leaves
the default tag. -/
def addMessage (cm : ChatManager) (role content : String) (opts : AddOpts) :
    Message × ChatManager :=
  let msg : Message :=
    { id := cm.nextId, role := role, content := content,
      timestamp := opts.timestamp.getD cm.now,
      isStreaming := opts.isStreaming, metadata := opts.metadata,
      type := opts.type.getD "message", completed := none }
  (msg, saveChatHistory { cm with messages := cm.messages ++ [msg], nextId := cm.nextId + 1 })

/-- Whether some message in the list carries the given id
(the `findIndex` hit test of updateMessage and deleteMessage). -/
def containsId (mid : Nat) : List Message → Bool
  | [] => false
  | m :: ms => m.id == mid || containsId mid ms

/-- Apply an update to the first message carrying the given id, as
`Object.assign` at the `findIndex` position does. -/
def modifyFirstById (mid : Nat) (f : Message → Message) : List Message → List Message
  | [] => []
  | m :: ms => if m.id == mid then f m :: ms else m :: modifyFirstById mid f ms

/-- Remove the first message carrying the given id (the `splice(index, 1)`
of deleteMessage). -/
def removeFirstById (mid : Nat) : List Message → List Message
  | [] => []
  | m :: ms => if m.id == mid then ms else m :: removeFirstById mid ms

/-- ChatManager.updateMessage: no-op when the id is absent (findIndex is -1);
otherwise assign the updates onto the stored message and persist. -/
def updateMessage (cm : ChatManager) (mid : Nat) (f : Message → Message) : ChatManager :=
  if containsId mid cm.messages then
    saveChatHistory { cm with messages := modifyFirstById mid f cm.messages }
  else cm

/-- ChatManager.setTyping: state effect of the typing flag update (the
guarded event emission has no further state effect). -/
def setTyping (cm : ChatManager) (b : Bool) : ChatManager :=
  { cm with isTyping := b }

/-- ChatManager.handleError: append a system-role error message built from
the error text, then stop the typing indicator. -/
def handleError (cm : ChatManager) (emsg : String) : ChatManager :=
  setTyping (addMessage cm "system" ("Error: " ++ emsg) { type := some "error" }).2 false

/-- ChatManager.deleteMessage: false and untouched log when the id is
absent, otherwise splice out the first hit and persist. -/
def deleteMessage (cm : ChatManager) (mid : Nat) : Bool × ChatManager :=
  if containsId mid cm.messages then
    (true, saveChatHistory { cm with messages := removeFirstById mid cm.messages })
  else (false, cm)

/-- ChatManager.clearMessages: empty the log, drop the streaming reference,
stop typing and persist the empty log. -/
def clearMessages (cm : ChatManager) : ChatManager :=
  saveChatHistory
    (setTyping { cm with messages := [], currentStreamingMessage := none } false)

/-- Typed events the ApiService emits on its MESSAGE_RECEIVED channel while
streaming: `start` for the first truthy token, `token` for later tokens,
`metadata` for a payload carrying a chunks field. -/
inductive ApiEvent
  | start (content : String)
  | token (content : String)
  | metadata (chunks : List Chunk)
deriving Repr, DecidableEq

/-- ChatManager.handleApiMessage: `start` creates the streaming assistant
message and remembers it; `token` appends to the remembered message's
content and writes it back by id; `metadata` attaches the payload's chunks
to the remembered message by id; `token` and `metadata` are dropped when no
message is being streamed. -/
def handleApiMessage (cm : ChatManager) (ev : ApiEvent) : ChatManager :=
  match ev with
  | .start content =>
      let r := addMessage cm "assistant" content
        { isStreaming := true, timestamp := some cm.now }
      { r.2 with currentStreamingMessage := some r.1 }
  | .token content =>
      match cm.currentStreamingMessage with
      | none => cm
      | some m =>
          updateMessage
            { cm with
              currentStreamingMessage :=
                some ({ m with content := m.content ++ content }) }
            m.id (fun q => { q with content := m.content ++ content })
  | .metadata chunks =>
      match cm.currentStreamingMessage with
      | none => cm
      | some m =>
          updateMessage cm m.id (fun q => { q with metadata := some chunks })

/-- One frame of the streaming wire protocol as the onmessage handler sees
it: the literal DONE marker, a payload JSON.parse rejects, or a parsed
payload with its optional token and chunks fields. -/
inductive Frame
  | done
  | invalid
  | payload (token : Option String) (chunks : Option (List Chunk))
deriving Repr, DecidableEq

/-- Text of an optional token field; a missing field reads as empty. -/
def tokText : Option String → String
  | some t => t
  | none => ""

/-- Transport-plus-chat state while a stream is in flight: the chat state,
the accumulated assistantMessage string of streamQuery, and its hasStarted
flag. -/
structure StreamAcc where
  cm : ChatManager
  acc : String
  hasStarted : Bool
deriving Repr

/-- Effect of one parsed payload frame inside onmessage: a truthy token
emits start or token (handled synchronously by the ChatManager) and is
appended to the accumulator; a chunks field then emits metadata. -/
def stepPayload (s : StreamAcc) (tok : Option String) (ch : Option (List Chunk)) :
    StreamAcc :=
  let s1 :=
    if tokText tok = "" then s
    else if s.hasStarted then
      { cm := handleApiMessage s.cm (.token (tokText tok)),
        acc := s.acc ++ tokText tok, hasStarted := true }
    else
      { cm := handleApiMessage s.cm (.start (tokText tok)),
        acc := s.acc ++ tokText tok, hasStarted := true }
  match ch with
  | some cs => { s1 with cm := handleApiMessage s1.cm (.metadata cs) }
  | none => s1

/-- Terminal result of the streamQuery promise: resolve with completed
true, resolve with completed false (interruption with partial text), or
reject with the network error. -/
inductive Outcome
  | completed (content : String)
  | interrupted (content : String)
  | failed
deriving Repr, DecidableEq

/-- ERROR_MESSAGES.NETWORK_ERROR from config.js. -/
def networkErrorText : String := "Network error. Please check your connection."

/-- ERROR_MESSAGES.INVALID_URL from config.js. -/
def invalidUrlText : String := "Please enter a valid URL."

/-- Run the EventSource callbacks of streamQuery over a list of frames,
ending with a connection error when `endsErr` is set and no DONE marker was
reached.  A DONE frame stops typing and resolves completed; an invalid
frame is skipped; exhaustion with `endsErr` stops typing and then either
resolves interrupted (hasStarted) or runs handleNetworkError, whose ERROR
event the ChatManager turns into a system message, and rejects.
Exhaustion without an error leaves the promise pending (outcome `none`). -/
def runStream (s : StreamAcc) : List Frame → Bool → StreamAcc × Option Outcome
  | [], endsErr =>
      if endsErr then
        let s1 : StreamAcc := { s with cm := setTyping s.cm false }
        if s1.hasStarted then (s1, some (.interrupted s1.acc))
        else ({ s1 with cm := handleError s1.cm networkErrorText }, some .failed)
      else (s, none)
  | f :: fs, endsErr =>
      match f with
      | .done => ({ s with cm := setTyping s.cm false }, some (.completed s.acc))
      | .invalid => runStream s fs endsErr
      | .payload tok ch => runStream (stepPayload s tok ch) fs endsErr

/-- Utils.isValidUrl: the source parses with the WHATWG `new URL` built-in
and accepts exactly the http and https protocols.  The runtime parser is
not part of the repository; an absolute http or https URL is modelled by
its scheme prefix. -/
def isValidUrl (s : String) : Bool :=
  jsStartsWith s "http://" || jsStartsWith s "https://"

/-- Result of a ChatManager.sendMessage call: synchronous validation
rejection (with the error text), busy rejection, network rejection from
the stream, resolution with the accumulated content and completed flag, or
a still-pending promise when the scenario never terminates. -/
inductive SendResult
  | validationError (emsg : String)
  | busyError
  | networkError
  | ok (content : String) (completed : Bool)
  | pending
deriving Repr, DecidableEq

/-- The state after sendMessage finalised the streaming message with the
given id: isStreaming cleared, completed recorded, reference dropped. -/
def finalizedState (cmS : ChatManager) (mid : Nat) (comp : Bool) : ChatManager :=
  let cm2 := updateMessage cmS mid
    (fun q => { q with isStreaming := false, completed := some comp })
  { cm2 with currentStreamingMessage := none }

/-- The finalisation sendMessage performs on the resolved response: if a
streaming message is held, mark it not streaming, record the completed
flag onto it and drop the reference; the resolved content is returned. -/
def finalizeStream (s : StreamAcc) (c : String) (comp : Bool) :
    SendResult × ChatManager :=
  match s.cm.currentStreamingMessage with
  | some m => (.ok c comp, finalizedState s.cm m.id comp)
  | none => (.ok c comp, s.cm)

/-- The part of sendMessage from the opened connection onwards: typing
starts with the connection, the frames are folded, and the terminal event
is handled — resolution finalises the streaming message, rejection clears
typing and the reference (the inner catch) and the outer catch appends a
system message through handleError. -/
def runSession (cm1 : ChatManager) (frames : List Frame) (endsErr : Bool) :
    SendResult × ChatManager :=
  match runStream { cm := setTyping cm1 true, acc := "", hasStarted := false }
      frames endsErr with
  | (s, none) => (.pending, s.cm)
  | (s, some (.completed c)) => finalizeStream s c true
  | (s, some (.interrupted c)) => finalizeStream s c false
  | (s, some .failed) =>
      let cm2 := { setTyping s.cm false with currentStreamingMessage := none }
      (.networkError, handleError cm2 networkErrorText)

/-- ChatManager.sendMessage driven by a concrete stream scenario.  Empty
text throws and the outer catch appends a system message.  A busy manager
(isTyping) throws likewise.  Otherwise the user message is appended and
streamQuery runs: an invalid siteUrl throws before any connection exists,
the ApiService ERROR event and the outer catch each appending a system
message; a valid one runs the session over the given frames. -/
def sendMessage (cm : ChatManager) (content siteUrl : String)
    (frames : List Frame) (endsErr : Bool) : SendResult × ChatManager :=
  if jsTrim content = "" then
    (.validationError "Message cannot be empty",
     handleError cm "Message cannot be empty")
  else if cm.isTyping then
    (.busyError,
     handleError cm "Please wait for the current response to complete")
  else
    let cm1 := (addMessage cm "user" (jsTrim content) {}).2
    if isValidUrl siteUrl then
      runSession cm1 frames endsErr
    else
      let cm2 := handleError cm1 invalidUrlText
      let cm3 := { setTyping cm2 false with currentStreamingMessage := none }
      (.validationError invalidUrlText, handleError cm3 invalidUrlText)

/-- The document ChatManager.exportChat builds in json format before
stringification: the full in-memory log, the export instant, a version. -/
structure ChatExport where
  messages : List Message
  exportedAt : Nat
  version : String
deriving Repr, DecidableEq

/-- ChatManager.exportChat in json format (pure, no state effect). -/
def exportChat (cm : ChatManager) : ChatExport :=
  { messages := cm.messages, exportedAt := cm.now, version := "1.0" }

/-- A message entry of an imported document as importChat reads it: its
role, content and type (empty string modelling a missing, undefined or
empty — falsy — field), and optional timestamp and metadata fields. -/
structure RawMessage where
  role : String
  content : String
  timestamp : Option Nat
  metadata : Option (List Chunk)
  type : String
deriving Repr, DecidableEq

/-- A document handed to importChat after the JSON.parse stage: a string
JSON.parse rejects, a parse result that is not an object (so that reading
`.messages` throws), an object without a messages array, or an object
carrying one. -/
inductive ImportDoc
  | parseFail
  | nonObj
  | noMessages
  | withMessages (msgs : List RawMessage)
deriving Repr, DecidableEq

/-- The per-entry guard of importChat: `message.role && message.content`. -/
def wellFormedRaw (r : RawMessage) : Bool :=
  if r.role = "" then false else if r.content = "" then false else true

/-- One iteration of importChat's forEach: append entries passing the
role-and-content guard through addMessage (which assigns a fresh id),
silently skip the rest. -/
def importOne (cm : ChatManager) (r : RawMessage) : ChatManager :=
  if wellFormedRaw r then
    (addMessage cm r.role r.content
      { timestamp := some (r.timestamp.getD cm.now),
        metadata := r.metadata, type := some r.type }).2
  else cm

/-- ChatManager.importChat: parse failures, non-objects and documents
without a messages array are caught and reported as false with the manager
untouched; otherwise the log is cleared first unless merging, every entry
is folded through `importOne`, and the call reports true. -/
def importChat (cm : ChatManager) (doc : ImportDoc) (merge : Bool) :
    Bool × ChatManager :=
  match doc with
  | .parseFail => (false, cm)
  | .nonObj => (false, cm)
  | .noMessages => (false, cm)
  | .withMessages msgs =>
      let cm1 := if merge then cm else clearMessages cm
      (true, msgs.foldl importOne cm1)

/-- Reading one exported message back through JSON: role, content and type
survive as strings, the Date serialises to a (truthy) ISO string that
reparses to the same instant, metadata survives structurally; the id,
isStreaming and completed fields are present in the document but never
read by importChat. -/
def rawOfMessage (m : Message) : RawMessage :=
  { role := m.role, content := m.content, timestamp := some m.timestamp,
    metadata := m.metadata, type := m.type }

/-- The parsed form of an exported json document: an object carrying the
exported messages array. -/
def docOfExport (e : ChatExport) : ImportDoc :=
  .withMessages (e.messages.map rawOfMessage)

/-- ChatManager.getMessages returns `[...this.messages]`.  To express
freshness and aliasing of that spread copy, JavaScript arrays are modelled
by an explicit heap of array slots whose elements are object references
(the message objects live behind the references and are not copied). -/
structure ArrayWorld where
  heap : Nat → List Nat
  fresh : Nat

/-- getMessages over the array heap: allocate a fresh slot, fill it with
the same element references as the source slot, return the new slot. -/
def getMessagesArr (w : ArrayWorld) (src : Nat) : Nat × ArrayWorld :=
  (w.fresh,
   { heap := fun k => if k = w.fresh then w.heap src else w.heap k,
     fresh := w.fresh + 1 })

/-- An arbitrary in-place mutation of one array slot (push, splice,
reverse, sort are all instances): overwrite the slot's contents. -/
def writeArr (w : ArrayWorld) (slot : Nat) (l : List Nat) : ArrayWorld :=
  { w with heap := fun k => if k = slot then l else w.heap k }

/-- Concatenation of a list of strings in order. -/
def concatAll : List String → String
  | [] => ""
  | s :: l => s ++ concatAll l

/-- All token fields of the frames before the first DONE marker, in
arrival order (including empty ones, which JavaScript truthiness makes the
handler skip). -/
def frameTokens : List Frame → List String
  | [] => []
  | Frame.done :: _ => []
  | Frame.invalid :: fs => frameTokens fs
  | Frame.payload tok _ :: fs =>
      match tok with
      | some tk => tk :: frameTokens fs
      | none => frameTokens fs

/-- The truthy (non-empty) token fields before the first DONE marker:
exactly the ones the onmessage handler acts on. -/
def liveTokens : List Frame → List String
  | [] => []
  | Frame.done :: _ => []
  | Frame.invalid :: fs => liveTokens fs
  | Frame.payload tok _ :: fs =>
      if tokText tok = "" then liveTokens fs
      else tokText tok :: liveTokens fs

/-- Whether the frame list reaches a DONE marker. -/
def hasDone : List Frame → Bool
  | [] => false
  | Frame.done :: _ => true
  | _ :: fs => hasDone fs

/-- The streaming assistant message while content `c` is accumulated, with
metadata `meta`.  The copy held in currentStreamingMessage always has
metadata none (metadata updates go to the log entry by id, not to the
reference); the log entry carries the last chunks seen. -/
def asstEntry (n0 t : Nat) (c : String) (meta : Option (List Chunk)) : Message :=
  { id := n0, role := "assistant", content := c, timestamp := t,
    isStreaming := true, metadata := meta, type := "message", completed := none }

/-- The assistant message after finalisation: streaming ended, the
completed flag recorded. -/
def finalAsst (n0 t : Nat) (c : String) (meta : Option (List Chunk))
    (comp : Bool) : Message :=
  { id := n0, role := "assistant", content := c, timestamp := t,
    isStreaming := false, metadata := meta, type := "message",
    completed := some comp }

/-- The user message that an accepted sendMessage call appends. -/
def userMessage (cm : ChatManager) (content : String) : Message :=
  { id := cm.nextId, role := "user", content := jsTrim content,
    timestamp := cm.now, isStreaming := false, metadata := none,
    type := "message", completed := none }

/-- The system-role error message handleError appends. -/
def systemErrorMessage (idv t : Nat) (emsg : String) : Message :=
  { id := idv, role := "system", content := "Error: " ++ emsg,
    timestamp := t, isStreaming := false, metadata := none,
    type := "error", completed := none }

/-- Invariant tying the transport accumulator to the chat state while a
stream is in flight over base log `base`, with `n0` the id the assistant
message gets (fresh for `base`) and `t` the model instant: before the
first truthy token nothing has changed; afterwards the manager holds the
accumulator's text in the streaming reference and the log ends with the
matching assistant entry (whose metadata tracks the chunks frames). -/
def Mid (base : List Message) (n0 t : Nat) (cm : ChatManager) (acc : String)
    (hst : Bool) : Prop :=
  cm.now = t ∧ (∀ m ∈ base, m.id ≠ n0) ∧
  (if hst = true then
      ∃ meta, cm.currentStreamingMessage = some (asstEntry n0 t acc none) ∧
        cm.messages = base ++ [asstEntry n0 t acc meta] ∧
        cm.nextId = n0 + 1
   else
      acc = "" ∧ cm.messages = base ∧
      cm.currentStreamingMessage = none ∧ cm.nextId = n0)

/-- An imported entry after addMessage regenerated its id (normalised to
id 0 for comparison): the fields importChat carries over, a fresh
timestamp default, isStreaming reset, no completed flag. -/
def builtRaw (t : Nat) (r : RawMessage) : Message :=
  { id := 0, role := r.role, content := r.content,
    timestamp := r.timestamp.getD t, isStreaming := false,
    metadata := r.metadata, type := r.type, completed := none }

/-- Normalise a message by forgetting its (regenerated) id. -/
def stripId (m : Message) : Message := { m with id := 0 }

/-- The message addMessage actually builds for one imported entry (with
the fresh id the manager's supply hands out). -/
def builtRawMsg (cm : ChatManager) (r : RawMessage) : Message :=
  { id := cm.nextId, role := r.role, content := r.content,
    timestamp := r.timestamp.getD cm.now, isStreaming := false,
    metadata := r.metadata, type := r.type, completed := none }

/-- Normalise a message by forgetting the fields an export-import round
trip regenerates or drops: the id, the isStreaming flag, the completed
flag. -/
def stripVolatile (m : Message) : Message :=
  { m with id := 0, isStreaming := false, completed := none }

/-- A manager holding exactly one user message (id 0), used as concrete
source state for counterexamples. -/
def cmOne : ChatManager := (addMessage initChat "user" "hi" {}).2

/-- An empty conversation whose id supply is at 1, modelling a client
whose fresh ids differ from the exported ones (ids are random strings in
the source, so a collision is the exception, not the rule). -/
def cmEmptyTarget : ChatManager := { initChat with nextId := 1 }

/-- A document whose messages array holds one entry with a falsy role:
an array of not-well-formed messages. -/
def badDoc : ImportDoc :=
  .withMessages [{ role := "", content := "x", timestamp := none,
                   metadata := none, type := "" }]

/-- An assistant message mid-stream, used to refute the claim that
deleteMessage protects the streaming message. -/
def streamingAsst : Message :=
  { id := 0, role := "assistant", content := "partial", timestamp := 0,
    isStreaming := true, metadata := none, type := "message", completed := none }

/-- A manager whose only message is currently streaming. -/
def cmStreaming : ChatManager :=
  { messages := [streamingAsst], isTyping := true,
    currentStreamingMessage := some streamingAsst, nextId := 1, now := 0,
    store := none }

/-- Two plain messages and the manager holding them, for witnesses. -/
def msgA : Message :=
  { id := 0, role := "user", content := "a", timestamp := 0,
    isStreaming := false, metadata := none, type := "message", completed := none }

/-- Second concrete message. -/
def msgB : Message :=
  { id := 1, role := "assistant", content := "b", timestamp := 0,
    isStreaming := false, metadata := none, type := "message", completed := none }

/-- Manager holding msgA and msgB. -/
def cmTwo : ChatManager :=
  { messages := [msgA, msgB], isTyping := false,
    currentStreamingMessage := none, nextId := 2, now := 0, store := none }

/-- The frame scenario of the specification's accumulation example. -/
def helFrames : List Frame :=
  [Frame.payload (some "Hel") none, Frame.payload (some "lo") none, Frame.done]

/-- A concrete array world: one allocated slot 0 holding two references. -/
def arrW : ArrayWorld := { heap := fun _ => [0, 1], fresh := 1 }

/-- A list of messages none of which carries the id contains the id
nowhere. -/
theorem containsId_eq_false {mid : Nat} {l : List Message}
    (h : ∀ m ∈ l, m.id ≠ mid) : containsId mid l = false := by
  induction l with
  | nil => rfl
  | cons m ms ih =>
      have h1 : m.id ≠ mid := h m (by simp)
      simp [containsId, h1, ih fun q hq => h q (by simp [hq])]

/-- containsId distributes over append. -/
theorem containsId_append (mid : Nat) (l1 l2 : List Message) :
    containsId mid (l1 ++ l2) = (containsId mid l1 || containsId mid l2) := by
  induction l1 with
  | nil => simp [containsId]
  | cons m ms ih => simp [containsId, ih, Bool.or_assoc]

/-- modifyFirstById passes over a block of messages without the id. -/
theorem modifyFirstById_skip {mid : Nat} (f : Message → Message)
    {l1 : List Message} (l2 : List Message) (h : ∀ m ∈ l1, m.id ≠ mid) :
    modifyFirstById mid f (l1 ++ l2) = l1 ++ modifyFirstById mid f l2 := by
  induction l1 with
  | nil => rfl
  | cons m ms ih =>
      have h1 : m.id ≠ mid := h m (by simp)
      simp [modifyFirstById, h1, ih fun q hq => h q (by simp [hq])]

/-- removeFirstById passes over a block of messages without the id. -/
theorem removeFirstById_skip {mid : Nat}
    {l1 : List Message} (l2 : List Message) (h : ∀ m ∈ l1, m.id ≠ mid) :
    removeFirstById mid (l1 ++ l2) = l1 ++ removeFirstById mid l2 := by
  induction l1 with
  | nil => rfl
  | cons m ms ih =>
      have h1 : m.id ≠ mid := h m (by simp)
      simp [removeFirstById, h1, ih fun q hq => h q (by simp [hq])]

/-- updateMessage on a log whose unique hit sits after an id-free block
rewrites exactly that entry and persists. -/
theorem updateMessage_at (cm : ChatManager) (l1 : List Message)
    (m : Message) (l2 : List Message) (f : Message → Message) (mid : Nat)
    (hmid : m.id = mid) (hmsgs : cm.messages = l1 ++ m :: l2)
    (h1 : ∀ q ∈ l1, q.id ≠ mid) :
    updateMessage cm mid f =
      saveChatHistory { cm with messages := l1 ++ f m :: l2 } := by
  subst hmid
  have hc : containsId m.id cm.messages = true := by
    rw [hmsgs, containsId_append]
    simp [containsId]
  rw [updateMessage, hc]
  simp only [hmsgs, modifyFirstById_skip f (m :: l2) h1, modifyFirstById,
    beq_self_eq_true, if_pos]

/-- C7 counterexample: the claim says deleteMessage never removes the
assistant message that is currently streaming, but the source has no such
guard: deleting the id of the streaming message succeeds and empties the
log while currentStreamingMessage still points at it. -/
theorem C7_delete_streaming_counterexample :
    cmStreaming.currentStreamingMessage = some streamingAsst ∧
    streamingAsst.isStreaming = true ∧
    (deleteMessage cmStreaming 0).1 = true ∧
    (deleteMessage cmStreaming 0).2.messages = [] := by decide

/-- C7 (amended): deleteMessage returns false and changes nothing for an
unknown id; for an id present in the log (unique up to its position) it
removes exactly that message and no other — including, contrary to the
claim, the currently streaming assistant message. -/
theorem C7_deleteMessage_amended :
    (∀ (cm : ChatManager) (mid : Nat), (∀ m ∈ cm.messages, m.id ≠ mid) →
      deleteMessage cm mid = (false, cm)) ∧
    (∀ (cm : ChatManager) (l1 : List Message) (m : Message) (l2 : List Message),
      cm.messages = l1 ++ m :: l2 → (∀ q ∈ l1, q.id ≠ m.id) →
      (deleteMessage cm m.id).1 = true ∧
      (deleteMessage cm m.id).2.messages = l1 ++ l2) := by
  constructor
  · intro cm mid h
    simp [deleteMessage, containsId_eq_false h]
  · intro cm l1 m l2 hmsgs h1
    have hc : containsId m.id cm.messages = true := by
      rw [hmsgs, containsId_append]
      simp [containsId]
    rw [deleteMessage, hc]
    simp [hmsgs, removeFirstById_skip (m :: l2) h1, removeFirstById,
      saveChatHistory]

/-- C7 witness: the amended theorem applied at the concrete two-message
manager, for an unknown id and for msgB's id. -/
theorem C7_deleteMessage_amended_witness :
    deleteMessage cmTwo 5 = (false, cmTwo) ∧
    (deleteMessage cmTwo 1).1 = true ∧
    (deleteMessage cmTwo 1).2.messages = [msgA] := by
  refine ⟨C7_deleteMessage_amended.1 cmTwo 5 (by decide), ?_, ?_⟩
  · exact (C7_deleteMessage_amended.2 cmTwo [msgA] msgB [] (by decide) (by decide)).1
  · exact (C7_deleteMessage_amended.2 cmTwo [msgA] msgB [] (by decide) (by decide)).2

/-- C8: every persisted save goes through saveChatHistory, which stores
the savedRecord: it never exceeds 100 entries, and it is the final
segment of the in-memory log — the most recent messages in their original
relative order (all of them when the log is short enough). -/
theorem C8_persisted_log_capped (cm : ChatManager) :
    (saveChatHistory cm).store = some (savedRecord cm) ∧
    (savedRecord cm).messages.length ≤ 100 ∧
    (savedRecord cm).messages = cm.messages.drop (cm.messages.length - 100) ∧
    (cm.messages.length ≤ 100 → (savedRecord cm).messages = cm.messages) := by
  refine ⟨rfl, ?_, rfl, ?_⟩
  · simp [savedRecord]
    omega
  · intro h
    have h0 : cm.messages.length - 100 = 0 := by omega
    simp [savedRecord, h0]

/-- C8 witness: the capping theorem applied at the concrete two-message
manager, discharging the short-log implication there. -/
theorem C8_persisted_log_capped_witness :
    (savedRecord cmTwo).messages.length ≤ 100 ∧
    cmTwo.messages.length ≤ 100 ∧
    (savedRecord cmTwo).messages = cmTwo.messages :=
  ⟨(C8_persisted_log_capped cmTwo).2.1, by decide,
   (C8_persisted_log_capped cmTwo).2.2.2 (by decide)⟩

/-- C9: frames whose payload is neither DONE nor valid JSON are skipped:
running any scenario equals running it with the invalid frames removed, so
they never terminate the stream and never change the accumulated content
or the chat state. -/
theorem C9_invalid_frames_skipped (s : StreamAcc) (frames : List Frame)
    (endsErr : Bool) :
    runStream s (frames.filter (fun f => f != Frame.invalid)) endsErr =
      runStream s frames endsErr := by
  induction frames generalizing s with
  | nil => rfl
  | cons f fs ih =>
      cases f with
      | done => simp [runStream, List.filter]
      | invalid => simpa [List.filter, runStream] using ih s
      | payload tok ch => simpa [List.filter, runStream] using ih (stepPayload s tok ch)

/-- C10: getMessages allocates a fresh array (a slot distinct from the
internal one) holding the same element references; overwriting the
returned slot with anything — append, removal, reordering — leaves the
internal messages array untouched. -/
theorem C10_getMessages_fresh_copy (w : ArrayWorld) (src : Nat)
    (h : src < w.fresh) :
    (getMessagesArr w src).1 ≠ src ∧
    (getMessagesArr w src).2.heap (getMessagesArr w src).1 = w.heap src ∧
    (getMessagesArr w src).2.heap src = w.heap src ∧
    (∀ l, (writeArr (getMessagesArr w src).2 (getMessagesArr w src).1 l).heap src =
      w.heap src) := by
  have hne : w.fresh ≠ src := fun he => absurd (he ▸ h) (lt_irrefl _)
  have hne2 : src ≠ w.fresh := fun he => hne he.symm
  refine ⟨hne, ?_, ?_, ?_⟩
  · simp [getMessagesArr]
  · simp [getMessagesArr, hne2]
  · intro l
    simp [getMessagesArr, writeArr, hne2]

/-- C10 witness: the theorem applied at the concrete one-slot world. -/
theorem C10_getMessages_fresh_copy_witness :
    0 < arrW.fresh ∧
    ((getMessagesArr arrW 0).1 ≠ 0 ∧
     (getMessagesArr arrW 0).2.heap (getMessagesArr arrW 0).1 = arrW.heap 0 ∧
     (getMessagesArr arrW 0).2.heap 0 = arrW.heap 0 ∧
     (∀ l, (writeArr (getMessagesArr arrW 0).2 (getMessagesArr arrW 0).1 l).heap 0 =
       arrW.heap 0)) :=
  ⟨by decide, C10_getMessages_fresh_copy arrW 0 (by decide)⟩

/-- C2 counterexample: a sendMessage call on a busy manager does fail with
the busy rejection, but the log does not stay unchanged — the outer catch
routes the error through handleError, which appends a system message. -/
theorem C2_busy_counterexample :
    ({ initChat with isTyping := true } : ChatManager).messages = [] ∧
    (sendMessage { initChat with isTyping := true } "hi" "https://example.com"
      [] false).1 = SendResult.busyError ∧
    (sendMessage { initChat with isTyping := true } "hi" "https://example.com"
      [] false).2.messages ≠ [] := by decide

/-- C2 (amended): a sendMessage call with non-empty text while a response
is in flight fails with the busy rejection and appends exactly one
system-role error message — no user or assistant message — and, as a side
effect of handleError, clears the typing flag.  (With empty text the
emptiness validation fires first instead.) -/
theorem C2_busy_rejection_amended (cm : ChatManager)
    (content siteUrl : String) (frames : List Frame) (endsErr : Bool)
    (hBusy : cm.isTyping = true) (hText : jsTrim content ≠ "") :
    (sendMessage cm content siteUrl frames endsErr).1 = SendResult.busyError ∧
    (sendMessage cm content siteUrl frames endsErr).2.messages =
      cm.messages ++
        [systemErrorMessage cm.nextId cm.now
          "Please wait for the current response to complete"] ∧
    (sendMessage cm content siteUrl frames endsErr).2.currentStreamingMessage =
      cm.currentStreamingMessage ∧
    (sendMessage cm content siteUrl frames endsErr).2.isTyping = false := by
  simp [sendMessage, hBusy, hText, handleError, addMessage, setTyping,
    saveChatHistory, systemErrorMessage]

/-- C2 witness: the amended theorem at the concrete busy manager. -/
theorem C2_busy_rejection_amended_witness :
    ({ initChat with isTyping := true } : ChatManager).isTyping = true ∧
    (jsTrim "hi" ≠ "") ∧
    ((sendMessage { initChat with isTyping := true } "hi" "https://example.com"
        [] false).1 = SendResult.busyError ∧
     (sendMessage { initChat with isTyping := true } "hi" "https://example.com"
        [] false).2.messages =
       ({ initChat with isTyping := true } : ChatManager).messages ++
         [systemErrorMessage ({ initChat with isTyping := true } : ChatManager).nextId
           ({ initChat with isTyping := true } : ChatManager).now
           "Please wait for the current response to complete"] ∧
     (sendMessage { initChat with isTyping := true } "hi" "https://example.com"
        [] false).2.currentStreamingMessage =
       ({ initChat with isTyping := true } : ChatManager).currentStreamingMessage ∧
     (sendMessage { initChat with isTyping := true } "hi" "https://example.com"
        [] false).2.isTyping = false) :=
  ⟨rfl, by decide,
   C2_busy_rejection_amended { initChat with isTyping := true } "hi"
     "https://example.com" [] false rfl (by decide)⟩

/-- C4 counterexample: a send with an invalid siteUrl is rejected with the
URL validation error, but the log does not stay untouched — the user
message was already appended and two system error messages follow (one
from the ApiService error event, one from the outer catch). -/
theorem C4_validation_counterexample :
    initChat.messages = [] ∧
    (sendMessage initChat "hi" "notaurl" [] false).1 =
      SendResult.validationError invalidUrlText ∧
    (sendMessage initChat "hi" "notaurl" [] false).2.messages.length = 3 := by
  decide

/-- C4 (amended): both precondition violations reject synchronously with a
validation error and no streaming connection is opened (for the URL case
the result does not depend on the stream scenario at all), but the log is
touched: an empty question appends one system error message, and an
invalid siteUrl appends the trimmed user message followed by two system
error messages. -/
theorem C4_validation_rejection_amended :
    (∀ (cm : ChatManager) (content siteUrl : String) (frames : List Frame)
       (endsErr : Bool), jsTrim content = "" →
       (sendMessage cm content siteUrl frames endsErr).1 =
         SendResult.validationError "Message cannot be empty" ∧
       (sendMessage cm content siteUrl frames endsErr).2.messages =
         cm.messages ++
           [systemErrorMessage cm.nextId cm.now "Message cannot be empty"]) ∧
    (∀ (cm : ChatManager) (content siteUrl : String) (frames : List Frame)
       (endsErr : Bool), cm.isTyping = false → jsTrim content ≠ "" →
       isValidUrl siteUrl = false →
       sendMessage cm content siteUrl frames endsErr =
         sendMessage cm content siteUrl [] false ∧
       (sendMessage cm content siteUrl frames endsErr).1 =
         SendResult.validationError invalidUrlText ∧
       (sendMessage cm content siteUrl frames endsErr).2.messages =
         cm.messages ++
           [userMessage cm content,
            systemErrorMessage (cm.nextId + 1) cm.now invalidUrlText,
            systemErrorMessage (cm.nextId + 2) cm.now invalidUrlText]) := by
  constructor
  · intro cm content siteUrl frames endsErr hEmpty
    simp [sendMessage, hEmpty, handleError, addMessage, setTyping,
      saveChatHistory, systemErrorMessage]
  · intro cm content siteUrl frames endsErr hTyping hText hUrl
    refine ⟨?_, ?_, ?_⟩ <;>
      simp [sendMessage, hTyping, hText, hUrl, handleError, addMessage,
        setTyping, saveChatHistory, systemErrorMessage, userMessage]

/-- C4 witness: the amended theorem at concrete inputs — an all-blank
question, and a valid question with a non-http siteUrl. -/
theorem C4_validation_rejection_amended_witness :
    (jsTrim "   " = "" ∧
     (sendMessage initChat "   " "https://example.com" [] false).1 =
       SendResult.validationError "Message cannot be empty" ∧
     (sendMessage initChat "   " "https://example.com" [] false).2.messages =
       initChat.messages ++
         [systemErrorMessage initChat.nextId initChat.now "Message cannot be empty"]) ∧
    (initChat.isTyping = false ∧ jsTrim "hi" ≠ "" ∧
     isValidUrl "notaurl" = false ∧
     ((sendMessage initChat "hi" "notaurl" [Frame.done] true).1 =
        SendResult.validationError invalidUrlText ∧
      (sendMessage initChat "hi" "notaurl" [Frame.done] true).2.messages =
        initChat.messages ++
          [userMessage initChat "hi",
           systemErrorMessage (initChat.nextId + 1) initChat.now invalidUrlText,
           systemErrorMessage (initChat.nextId + 2) initChat.now invalidUrlText])) := by
  refine ⟨⟨by decide, ?_⟩, rfl, by decide, by decide, ?_⟩
  · exact C4_validation_rejection_amended.1 initChat "   " "https://example.com"
      [] false (by decide)
  · have h := C4_validation_rejection_amended.2 initChat "hi" "notaurl"
      [Frame.done] true rfl (by decide) (by decide)
    exact ⟨h.2.1, h.2.2⟩

/-- Folding importChat's per-entry step appends exactly the well-formed
entries (id forgotten, since addMessage regenerates it) and leaves the
model clock alone. -/
theorem foldl_importOne_spec (msgs : List RawMessage) :
    ∀ cm : ChatManager,
      (msgs.foldl importOne cm).messages.map stripId =
        cm.messages.map stripId ++
          (msgs.filter wellFormedRaw).map (builtRaw cm.now) ∧
      (msgs.foldl importOne cm).messages.map stripVolatile =
        cm.messages.map stripVolatile ++
          (msgs.filter wellFormedRaw).map (builtRaw cm.now) ∧
      (msgs.foldl importOne cm).now = cm.now := by
  induction msgs with
  | nil => intro cm; simp
  | cons r rs ih =>
      intro cm
      simp only [List.foldl_cons]
      by_cases h : wellFormedRaw r = true
      · rcases ih (importOne cm r) with ⟨i1, i2, i3⟩
        have h1 : (importOne cm r).messages = cm.messages ++ [builtRawMsg cm r] := by
          simp [importOne, h, addMessage, saveChatHistory, builtRawMsg]
        have h2 : (importOne cm r).now = cm.now := by
          simp [importOne, h, addMessage, saveChatHistory]
        refine ⟨?_, ?_, by rw [i3, h2]⟩
        · rw [i1, h1, h2]
          simp [List.filter_cons, h, stripId, builtRawMsg, builtRaw]
        · rw [i2, h1, h2]
          simp [List.filter_cons, h, stripVolatile, builtRawMsg, builtRaw]
      · have hstep : importOne cm r = cm := by
          simp [importOne, h]
        rw [hstep]
        rcases ih cm with ⟨i1, i2, i3⟩
        refine ⟨?_, ?_, i3⟩ <;> simp [List.filter_cons, h, i1, i2]

/-- C6 counterexample: a document whose messages array holds a single
entry with a falsy role — an array of not-well-formed messages — does not
fail with an import error: the call reports success, and with merge=false
it has cleared the previously non-empty log. -/
theorem C6_import_counterexample :
    cmOne.messages ≠ [] ∧
    (importChat cmOne badDoc false).1 = true ∧
    (importChat cmOne badDoc false).2.messages = [] := by decide

/-- C6 (amended): only the object-with-messages-array check is enforced
before committing — parse failures, non-objects and missing arrays fail
(importChat reports false, the ImportError of the specification) without
any mutation; once the array check passes the call reports true, with
merge=false the old log is cleared, and exactly the entries passing the
per-message role-and-content guard are appended in order (id regenerated,
isStreaming reset) — entries failing the guard are skipped silently
instead of failing the import. -/
theorem C6_import_validation_amended :
    (∀ (cm : ChatManager) (merge : Bool),
       importChat cm .parseFail merge = (false, cm) ∧
       importChat cm .nonObj merge = (false, cm) ∧
       importChat cm .noMessages merge = (false, cm)) ∧
    (∀ (cm : ChatManager) (msgs : List RawMessage),
       (importChat cm (.withMessages msgs) false).1 = true ∧
       (importChat cm (.withMessages msgs) false).2.messages.map stripId =
         (msgs.filter wellFormedRaw).map (builtRaw cm.now)) := by
  constructor
  · intro cm merge
    exact ⟨rfl, rfl, rfl⟩
  · intro cm msgs
    refine ⟨rfl, ?_⟩
    have h := (foldl_importOne_spec msgs (clearMessages cm)).1
    have hnow : (clearMessages cm).now = cm.now := rfl
    have hmsgs : (clearMessages cm).messages = [] := rfl
    rw [hmsgs, hnow] at h
    simpa [importChat] using h

/-- C5 counterexample: exporting a one-message log and importing it with
merge=false into an empty conversation (one whose id supply differs from
the exported ids, as the source's random ids do) does not reproduce an
equal log: the imported message carries a newly assigned id. -/
theorem C5_roundtrip_counterexample :
    cmEmptyTarget.messages = [] ∧
    (importChat cmEmptyTarget (docOfExport (exportChat cmOne)) false).2.messages ≠
      cmOne.messages := by decide

/-- C5 (amended): the round trip reproduces the log only up to the fields
importChat regenerates or drops: for a source log of messages with truthy
role and content, importing its export with merge=false into an empty
conversation succeeds and reproduces every message's role, content,
timestamp, metadata and type in order (the type verbatim, falsy or not,
since the trailing spread in addMessage writes the carried key), but each
imported message carries a freshly generated id, and the isStreaming and
completed fields are reset rather than restored. -/
theorem C5_roundtrip_amended (cm cmE : ChatManager)
    (hE : cmE.messages = [])
    (hwf : ∀ m ∈ cm.messages, m.role ≠ "" ∧ m.content ≠ "") :
    (importChat cmE (docOfExport (exportChat cm)) false).1 = true ∧
    (importChat cmE (docOfExport (exportChat cm)) false).2.messages.map
        stripVolatile =
      cm.messages.map stripVolatile := by
  refine ⟨rfl, ?_⟩
  have h := (foldl_importOne_spec (cm.messages.map rawOfMessage)
    (clearMessages cmE)).2.1
  have hmsgs : (clearMessages cmE).messages = [] := rfl
  rw [hmsgs] at h
  have hfil : (cm.messages.map rawOfMessage).filter wellFormedRaw =
      cm.messages.map rawOfMessage := by
    rw [List.filter_eq_self]
    intro r hr
    rcases List.mem_map.mp hr with ⟨m, hm, hmr⟩
    rcases hwf m hm with ⟨hr1, hr2⟩
    subst hmr
    simp [wellFormedRaw, rawOfMessage, hr1, hr2]
  have hmap : ∀ m ∈ cm.messages,
      builtRaw (clearMessages cmE).now (rawOfMessage m) = stripVolatile m := by
    intro m hm
    simp [builtRaw, rawOfMessage, stripVolatile]
  calc (importChat cmE (docOfExport (exportChat cm)) false).2.messages.map
        stripVolatile
      = ((cm.messages.map rawOfMessage).filter wellFormedRaw).map
          (builtRaw (clearMessages cmE).now) := by
        simpa [importChat, docOfExport, exportChat] using h
    _ = (cm.messages.map rawOfMessage).map (builtRaw (clearMessages cmE).now) := by
        rw [hfil]
    _ = cm.messages.map stripVolatile := by
        rw [List.map_map]
        exact List.map_congr_left fun m hm => hmap m hm

/-- C5 witness: the amended theorem applied to the concrete one-message
manager and the empty target with a shifted id supply. -/
theorem C5_roundtrip_amended_witness :
    cmEmptyTarget.messages = [] ∧
    (∀ m ∈ cmOne.messages, m.role ≠ "" ∧ m.content ≠ "") ∧
    ((importChat cmEmptyTarget (docOfExport (exportChat cmOne)) false).1 = true ∧
     (importChat cmEmptyTarget (docOfExport (exportChat cmOne)) false).2.messages.map
         stripVolatile =
       cmOne.messages.map stripVolatile) :=
  ⟨rfl, by decide, C5_roundtrip_amended cmOne cmEmptyTarget rfl (by decide)⟩

/-- Projection of the streaming assistant entry: its id. -/
@[simp] theorem asstEntry_id (n0 t : Nat) (c : String)
    (meta : Option (List Chunk)) : (asstEntry n0 t c meta).id = n0 := rfl

/-- Projection of the streaming assistant entry: its content. -/
@[simp] theorem asstEntry_content (n0 t : Nat) (c : String)
    (meta : Option (List Chunk)) : (asstEntry n0 t c meta).content = c := rfl

/-- Updating the content of the assistant entry. -/
@[simp] theorem asstEntry_set_content (n0 t : Nat) (c c2 : String)
    (meta : Option (List Chunk)) :
    ({ asstEntry n0 t c meta with content := c2 }) = asstEntry n0 t c2 meta := rfl

/-- Updating the metadata of the assistant entry. -/
@[simp] theorem asstEntry_set_meta (n0 t : Nat) (c : String)
    (meta m2 : Option (List Chunk)) :
    ({ asstEntry n0 t c meta with metadata := m2 }) = asstEntry n0 t c m2 := rfl

/-- Finalising the assistant entry yields the finalised record. -/
@[simp] theorem asstEntry_finalize (n0 t : Nat) (c : String)
    (meta : Option (List Chunk)) (comp : Bool) :
    ({ asstEntry n0 t c meta with isStreaming := false, completed := some comp }) =
      finalAsst n0 t c meta comp := rfl

/-- Concatenating all token fields equals concatenating the truthy ones:
empty token fields contribute nothing. -/
theorem concatAll_frameTokens (fs : List Frame) :
    concatAll (frameTokens fs) = concatAll (liveTokens fs) := by
  induction fs with
  | nil => rfl
  | cons f fs ih =>
      cases f with
      | done => rfl
      | invalid => simpa [frameTokens, liveTokens] using ih
      | payload tok ch =>
          cases tok with
          | none => simpa [frameTokens, liveTokens, tokText] using ih
          | some tk =>
              by_cases h : tk = ""
              · subst h
                simpa [frameTokens, liveTokens, tokText, concatAll,
                  String.empty_append] using ih
              · simp [frameTokens, liveTokens, tokText, h, concatAll, ih]

/-- A metadata frame preserves the mid-stream invariant: before the first
token the update is dropped (no streaming reference), afterwards it
replaces the log entry's metadata in place. -/
theorem mid_metadata (base : List Message) (n0 t : Nat) (cm : ChatManager)
    (acc : String) (hst : Bool) (cs : List Chunk)
    (h : Mid base n0 t cm acc hst) :
    Mid base n0 t (handleApiMessage cm (.metadata cs)) acc hst := by
  rcases h with ⟨hnow, hfresh, hrest⟩
  subst hnow
  cases hst with
  | true =>
      rw [if_pos rfl] at hrest
      rcases hrest with ⟨meta, hcsm, hmsgs, hnext⟩
      have hup := updateMessage_at cm base (asstEntry n0 cm.now acc meta) []
        (fun q => { q with metadata := some cs }) n0 rfl hmsgs hfresh
      rw [hcsm] at hup
      have hcm2 : handleApiMessage cm (.metadata cs) =
          saveChatHistory
            { cm with
              currentStreamingMessage := some (asstEntry n0 cm.now acc none),
              messages := base ++ [asstEntry n0 cm.now acc (some cs)] } := by
        simp only [handleApiMessage, hcsm]
        exact hup
      refine ⟨by rw [hcm2]; rfl, hfresh, ?_⟩
      rw [if_pos rfl]
      exact ⟨some cs, by rw [hcm2]; rfl, by rw [hcm2]; rfl,
        by rw [hcm2]; exact hnext⟩
  | false =>
      rw [if_neg (by simp)] at hrest
      rcases hrest with ⟨hacc, hmsgs, hcsm, hnext⟩
      have hcm2 : handleApiMessage cm (.metadata cs) = cm := by
        simp only [handleApiMessage, hcsm]
      rw [hcm2]
      refine ⟨rfl, hfresh, ?_⟩
      rw [if_neg (by simp)]
      exact ⟨hacc, hmsgs, hcsm, hnext⟩

/-- The first truthy token creates the streaming assistant message and
establishes the started half of the invariant. -/
theorem mid_start (base : List Message) (n0 t : Nat) (cm : ChatManager)
    (acc : String) (tk : String) (h : Mid base n0 t cm acc false) :
    Mid base n0 t (handleApiMessage cm (.start tk)) (acc ++ tk) true := by
  rcases h with ⟨hnow, hfresh, hrest⟩
  subst hnow
  rw [if_neg (by simp)] at hrest
  rcases hrest with ⟨hacc, hmsgs, hcsm, hnext⟩
  subst hnext
  refine ⟨rfl, hfresh, ?_⟩
  rw [if_pos rfl]
  refine ⟨none, ?_, ?_, rfl⟩
  · show some (asstEntry cm.nextId cm.now tk none) =
      some (asstEntry cm.nextId cm.now (acc ++ tk) none)
    rw [hacc, String.empty_append]
  · show cm.messages ++ [asstEntry cm.nextId cm.now tk none] =
      base ++ [asstEntry cm.nextId cm.now (acc ++ tk) none]
    rw [hmsgs, hacc, String.empty_append]

/-- A later truthy token appends to the streaming reference and writes the
extended content back to the log entry by id, preserving the invariant. -/
theorem mid_token (base : List Message) (n0 t : Nat) (cm : ChatManager)
    (acc : String) (tk : String) (h : Mid base n0 t cm acc true) :
    Mid base n0 t (handleApiMessage cm (.token tk)) (acc ++ tk) true := by
  rcases h with ⟨hnow, hfresh, hrest⟩
  subst hnow
  rw [if_pos rfl] at hrest
  rcases hrest with ⟨meta, hcsm, hmsgs, hnext⟩
  have hup := updateMessage_at
    { cm with
      currentStreamingMessage := some (asstEntry n0 cm.now (acc ++ tk) none) }
    base (asstEntry n0 cm.now acc meta) []
    (fun q => { q with content := acc ++ tk }) n0 rfl hmsgs hfresh
  have hcm2 : handleApiMessage cm (.token tk) =
      saveChatHistory
        { cm with
          currentStreamingMessage := some (asstEntry n0 cm.now (acc ++ tk) none),
          messages := base ++ [asstEntry n0 cm.now (acc ++ tk) meta] } := by
    simp only [handleApiMessage, hcsm]
    exact hup
  refine ⟨by rw [hcm2]; rfl, hfresh, ?_⟩
  rw [if_pos rfl]
  exact ⟨meta, by rw [hcm2]; rfl, by rw [hcm2]; rfl, by rw [hcm2]; exact hnext⟩

/-- One payload frame preserves the invariant; its accumulator and started
flag move exactly by the truthy token field. -/
theorem stepPayload_mid (base : List Message) (n0 t : Nat) (cm : ChatManager)
    (acc : String) (hst : Bool) (tok : Option String) (ch : Option (List Chunk))
    (h : Mid base n0 t cm acc hst) :
    Mid base n0 t (stepPayload ⟨cm, acc, hst⟩ tok ch).cm
      (stepPayload ⟨cm, acc, hst⟩ tok ch).acc
      (stepPayload ⟨cm, acc, hst⟩ tok ch).hasStarted ∧
    (stepPayload ⟨cm, acc, hst⟩ tok ch).acc =
      (if tokText tok = "" then acc else acc ++ tokText tok) ∧
    (stepPayload ⟨cm, acc, hst⟩ tok ch).hasStarted =
      (if tokText tok = "" then hst else true) := by
  by_cases htok : tokText tok = ""
  · cases ch with
    | none =>
        refine ⟨?_, by simp [stepPayload, htok], by simp [stepPayload, htok]⟩
        simpa [stepPayload, htok] using h
    | some cs =>
        refine ⟨?_, by simp [stepPayload, htok], by simp [stepPayload, htok]⟩
        simpa [stepPayload, htok] using mid_metadata base n0 t cm acc hst cs h
  · cases hst with
    | false =>
        cases ch with
        | none =>
            refine ⟨?_, by simp [stepPayload, htok], by simp [stepPayload, htok]⟩
            simpa [stepPayload, htok] using
              mid_start base n0 t cm acc (tokText tok) h
        | some cs =>
            refine ⟨?_, by simp [stepPayload, htok], by simp [stepPayload, htok]⟩
            simpa [stepPayload, htok] using
              mid_metadata base n0 t _ (acc ++ tokText tok) true cs
                (mid_start base n0 t cm acc (tokText tok) h)
    | true =>
        cases ch with
        | none =>
            refine ⟨?_, by simp [stepPayload, htok], by simp [stepPayload, htok]⟩
            simpa [stepPayload, htok] using
              mid_token base n0 t cm acc (tokText tok) h
        | some cs =>
            refine ⟨?_, by simp [stepPayload, htok], by simp [stepPayload, htok]⟩
            simpa [stepPayload, htok] using
              mid_metadata base n0 t _ (acc ++ tokText tok) true cs
                (mid_token base n0 t cm acc (tokText tok) h)

/-- Running the stream over a frame list from any invariant state: the
final accumulator appends exactly the truthy tokens, the started flag
records whether any were seen, and the returned value is completed on a
DONE marker, interrupted or failed on a connection error depending on the
started flag, and pending otherwise — with the chat state still tied to
the accumulator by the invariant. -/
theorem runStream_master (base : List Message) (n0 t : Nat) :
    ∀ (frames : List Frame) (endsErr : Bool) (cm : ChatManager) (acc : String)
      (hst : Bool), Mid base n0 t cm acc hst →
    ∃ s2 : StreamAcc, Mid base n0 t s2.cm s2.acc s2.hasStarted ∧
      s2.acc = acc ++ concatAll (liveTokens frames) ∧
      s2.hasStarted = (hst || !(liveTokens frames).isEmpty) ∧
      runStream ⟨cm, acc, hst⟩ frames endsErr =
        (if hasDone frames = true then
           ({ s2 with cm := setTyping s2.cm false },
            some (Outcome.completed s2.acc))
         else if endsErr = true then
           (if s2.hasStarted = true then
              ({ s2 with cm := setTyping s2.cm false },
               some (Outcome.interrupted s2.acc))
            else
              ({ s2 with cm := handleError (setTyping s2.cm false) networkErrorText },
               some Outcome.failed))
         else (s2, none)) := by
  intro frames
  induction frames with
  | nil =>
      intro endsErr cm acc hst h
      refine ⟨⟨cm, acc, hst⟩, h,
        by simp [liveTokens, concatAll, String.append_empty],
        by simp [liveTokens], ?_⟩
      simp only [runStream, hasDone]
      cases endsErr with
      | false => simp
      | true => cases hst <;> simp [setTyping]
  | cons f fs ih =>
      intro endsErr cm acc hst h
      cases f with
      | done =>
          refine ⟨⟨cm, acc, hst⟩, h,
            by simp [liveTokens, concatAll, String.append_empty],
            by simp [liveTokens], ?_⟩
          simp [runStream, hasDone]
      | invalid =>
          obtain ⟨s2, hM2, hacc2, hhst2, hrun2⟩ := ih endsErr cm acc hst h
          refine ⟨s2, hM2, hacc2, hhst2, ?_⟩
          simp only [runStream]
          exact hrun2
      | payload tok ch =>
          obtain ⟨hM1, hacc1, hhst1⟩ :=
            stepPayload_mid base n0 t cm acc hst tok ch h
          obtain ⟨s2, hM2, hacc2, hhst2, hrun2⟩ :=
            ih endsErr (stepPayload ⟨cm, acc, hst⟩ tok ch).cm
              (stepPayload ⟨cm, acc, hst⟩ tok ch).acc
              (stepPayload ⟨cm, acc, hst⟩ tok ch).hasStarted hM1
          refine ⟨s2, hM2, ?_, ?_, ?_⟩
          · rw [hacc2, hacc1]
            by_cases htok : tokText tok = ""
            · simp [liveTokens, htok]
            · simp [liveTokens, htok, concatAll, String.append_assoc]
          · rw [hhst2, hhst1]
            by_cases htok : tokText tok = ""
            · simp [liveTokens, htok]
            · simp [liveTokens, htok]
          · simp only [runStream]
            exact hrun2

/-- A valid, non-busy send reduces to the stream session on the manager
extended with the user message. -/
theorem sendMessage_valid_eq (cm : ChatManager) (content siteUrl : String)
    (frames : List Frame) (endsErr : Bool) (hText : jsTrim content ≠ "")
    (hTyping : cm.isTyping = false) (hUrl : isValidUrl siteUrl = true) :
    sendMessage cm content siteUrl frames endsErr =
      runSession (addMessage cm "user" (jsTrim content) {}).2 frames endsErr := by
  simp [sendMessage, hText, hTyping, hUrl]

/-- A session whose frames reach DONE after at least one truthy token
resolves completed: the concatenated tokens are returned, and the log ends
with the finalised assistant message. -/
theorem runSession_completed (cm1 : ChatManager) (frames : List Frame)
    (endsErr : Bool) (hCsm : cm1.currentStreamingMessage = none)
    (hfresh : ∀ m ∈ cm1.messages, m.id ≠ cm1.nextId)
    (hDone : hasDone frames = true)
    (hTok : (liveTokens frames).isEmpty = false) :
    ∃ meta r2,
      runSession cm1 frames endsErr =
        (SendResult.ok (concatAll (liveTokens frames)) true, r2) ∧
      r2.messages = cm1.messages ++
        [finalAsst cm1.nextId cm1.now (concatAll (liveTokens frames)) meta true] ∧
      r2.currentStreamingMessage = none ∧ r2.isTyping = false ∧
      r2.nextId = cm1.nextId + 1 ∧ r2.now = cm1.now := by
  have hMid0 : Mid cm1.messages cm1.nextId cm1.now (setTyping cm1 true) "" false := by
    refine ⟨rfl, hfresh, ?_⟩
    rw [if_neg (by simp)]
    exact ⟨rfl, rfl, hCsm, rfl⟩
  obtain ⟨s2, hM2, hacc2, hhst2, hrun⟩ :=
    runStream_master cm1.messages cm1.nextId cm1.now frames endsErr
      (setTyping cm1 true) "" false hMid0
  rw [hDone] at hrun
  rw [if_pos rfl] at hrun
  have hhst : s2.hasStarted = true := by
    rw [hhst2, hTok]
    rfl
  rcases hM2 with ⟨hnow2, _, hrest⟩
  rw [if_pos hhst] at hrest
  rcases hrest with ⟨meta, hcsm2, hmsgs2, hnext2⟩
  have haccv : s2.acc = concatAll (liveTokens frames) := by
    rw [hacc2, String.empty_append]
  have hup := updateMessage_at (setTyping s2.cm false) cm1.messages
    (asstEntry cm1.nextId cm1.now s2.acc meta) []
    (fun q => { q with isStreaming := false, completed := some true })
    cm1.nextId rfl hmsgs2 hfresh
  have hsess : runSession cm1 frames endsErr =
      finalizeStream { s2 with cm := setTyping s2.cm false } s2.acc true := by
    simp only [runSession]
    rw [hrun]
  have hproj : (setTyping s2.cm false).currentStreamingMessage =
      some (asstEntry cm1.nextId cm1.now s2.acc none) := hcsm2
  have heq : finalizeStream { s2 with cm := setTyping s2.cm false } s2.acc true =
      (SendResult.ok s2.acc true, finalizedState (setTyping s2.cm false) cm1.nextId true) := by
    simp only [finalizeStream, hproj, asstEntry_id]
  have hq2 : (finalizedState (setTyping s2.cm false) cm1.nextId true).messages =
      cm1.messages ++ [finalAsst cm1.nextId cm1.now s2.acc meta true] := by
    simp only [finalizedState]
    rw [hup]
    rfl
  have hq4 : (finalizedState (setTyping s2.cm false) cm1.nextId true).isTyping = false := by
    simp only [finalizedState]
    rw [hup]
    rfl
  have hq5 : (finalizedState (setTyping s2.cm false) cm1.nextId true).nextId =
      cm1.nextId + 1 := by
    simp only [finalizedState]
    rw [hup]
    exact hnext2
  have hq6 : (finalizedState (setTyping s2.cm false) cm1.nextId true).now = cm1.now := by
    simp only [finalizedState]
    rw [hup]
    exact hnow2
  rw [← haccv]
  exact ⟨meta, finalizedState (setTyping s2.cm false) cm1.nextId true,
    hsess.trans heq, hq2, rfl, hq4, hq5, hq6⟩

/-- A session whose frames never reach DONE but end in a connection error
after at least one truthy token resolves interrupted: the partial text is
returned with completed false and the assistant message is finalised with
the accumulated content. -/
theorem runSession_interrupted (cm1 : ChatManager) (frames : List Frame)
    (hCsm : cm1.currentStreamingMessage = none)
    (hfresh : ∀ m ∈ cm1.messages, m.id ≠ cm1.nextId)
    (hDone : hasDone frames = false)
    (hTok : (liveTokens frames).isEmpty = false) :
    ∃ meta r2,
      runSession cm1 frames true =
        (SendResult.ok (concatAll (liveTokens frames)) false, r2) ∧
      r2.messages = cm1.messages ++
        [finalAsst cm1.nextId cm1.now (concatAll (liveTokens frames)) meta false] ∧
      r2.currentStreamingMessage = none ∧ r2.isTyping = false ∧
      r2.nextId = cm1.nextId + 1 ∧ r2.now = cm1.now := by
  have hMid0 : Mid cm1.messages cm1.nextId cm1.now (setTyping cm1 true) "" false := by
    refine ⟨rfl, hfresh, ?_⟩
    rw [if_neg (by simp)]
    exact ⟨rfl, rfl, hCsm, rfl⟩
  obtain ⟨s2, hM2, hacc2, hhst2, hrun⟩ :=
    runStream_master cm1.messages cm1.nextId cm1.now frames true
      (setTyping cm1 true) "" false hMid0
  have hhst : s2.hasStarted = true := by
    rw [hhst2, hTok]
    rfl
  rw [hDone] at hrun
  rw [if_neg (by simp)] at hrun
  rw [if_pos rfl] at hrun
  rw [if_pos hhst] at hrun
  rcases hM2 with ⟨hnow2, _, hrest⟩
  rw [if_pos hhst] at hrest
  rcases hrest with ⟨meta, hcsm2, hmsgs2, hnext2⟩
  have haccv : s2.acc = concatAll (liveTokens frames) := by
    rw [hacc2, String.empty_append]
  have hup := updateMessage_at (setTyping s2.cm false) cm1.messages
    (asstEntry cm1.nextId cm1.now s2.acc meta) []
    (fun q => { q with isStreaming := false, completed := some false })
    cm1.nextId rfl hmsgs2 hfresh
  have hsess : runSession cm1 frames true =
      finalizeStream { s2 with cm := setTyping s2.cm false } s2.acc false := by
    simp only [runSession]
    rw [hrun]
  have hproj : (setTyping s2.cm false).currentStreamingMessage =
      some (asstEntry cm1.nextId cm1.now s2.acc none) := hcsm2
  have heq : finalizeStream { s2 with cm := setTyping s2.cm false } s2.acc false =
      (SendResult.ok s2.acc false, finalizedState (setTyping s2.cm false) cm1.nextId false) := by
    simp only [finalizeStream, hproj, asstEntry_id]
  have hq2 : (finalizedState (setTyping s2.cm false) cm1.nextId false).messages =
      cm1.messages ++ [finalAsst cm1.nextId cm1.now s2.acc meta false] := by
    simp only [finalizedState]
    rw [hup]
    rfl
  have hq4 : (finalizedState (setTyping s2.cm false) cm1.nextId false).isTyping = false := by
    simp only [finalizedState]
    rw [hup]
    rfl
  have hq5 : (finalizedState (setTyping s2.cm false) cm1.nextId false).nextId =
      cm1.nextId + 1 := by
    simp only [finalizedState]
    rw [hup]
    exact hnext2
  have hq6 : (finalizedState (setTyping s2.cm false) cm1.nextId false).now = cm1.now := by
    simp only [finalizedState]
    rw [hup]
    exact hnow2
  rw [← haccv]
  exact ⟨meta, finalizedState (setTyping s2.cm false) cm1.nextId false,
    hsess.trans heq, hq2, rfl, hq4, hq5, hq6⟩

/-- A session whose frames never reach DONE, carry no truthy token and end
in a connection error rejects with the network error. -/
theorem runSession_failed (cm1 : ChatManager) (frames : List Frame)
    (hCsm : cm1.currentStreamingMessage = none)
    (hfresh : ∀ m ∈ cm1.messages, m.id ≠ cm1.nextId)
    (hDone : hasDone frames = false)
    (hTok : (liveTokens frames).isEmpty = true) :
    (runSession cm1 frames true).1 = SendResult.networkError := by
  have hMid0 : Mid cm1.messages cm1.nextId cm1.now (setTyping cm1 true) "" false := by
    refine ⟨rfl, hfresh, ?_⟩
    rw [if_neg (by simp)]
    exact ⟨rfl, rfl, hCsm, rfl⟩
  obtain ⟨s2, hM2, hacc2, hhst2, hrun⟩ :=
    runStream_master cm1.messages cm1.nextId cm1.now frames true
      (setTyping cm1 true) "" false hMid0
  have hhst : s2.hasStarted = false := by
    rw [hhst2, hTok]
    rfl
  rw [hDone] at hrun
  rw [if_neg (by simp)] at hrun
  rw [if_pos rfl] at hrun
  rw [if_neg (by simp [hhst])] at hrun
  simp only [runSession]
  rw [hrun]

/-- C1: a valid send over a stream whose frames deliver tokens in order
and end with DONE completes successfully: the returned content and the
assistant message appended after the user message both equal the
concatenation of all token fields in frame-arrival order, with
isStreaming false and the success recorded. -/
theorem C1_token_accumulation (cm : ChatManager) (content siteUrl : String)
    (frames : List Frame) (endsErr : Bool)
    (hIds : ∀ m ∈ cm.messages, m.id < cm.nextId)
    (hTyping : cm.isTyping = false)
    (hCsm : cm.currentStreamingMessage = none)
    (hText : jsTrim content ≠ "")
    (hUrl : isValidUrl siteUrl = true)
    (hDone : hasDone frames = true)
    (hTok : (liveTokens frames).isEmpty = false) :
    ∃ meta r2,
      sendMessage cm content siteUrl frames endsErr =
        (SendResult.ok (concatAll (frameTokens frames)) true, r2) ∧
      r2.messages = cm.messages ++
        [userMessage cm content,
         finalAsst (cm.nextId + 1) cm.now (concatAll (frameTokens frames)) meta true] ∧
      r2.currentStreamingMessage = none ∧ r2.isTyping = false := by
  have hc1 : (addMessage cm "user" (jsTrim content) {}).2.currentStreamingMessage =
      none := hCsm
  have hfresh : ∀ m ∈ (addMessage cm "user" (jsTrim content) {}).2.messages,
      m.id ≠ (addMessage cm "user" (jsTrim content) {}).2.nextId := by
    have hm : (addMessage cm "user" (jsTrim content) {}).2.messages =
        cm.messages ++ [userMessage cm content] := rfl
    rw [hm]
    intro m hmem
    rcases List.mem_append.mp hmem with h1 | h1
    · have h2 := hIds m h1
      show m.id ≠ cm.nextId + 1
      omega
    · have h2 : m = userMessage cm content := List.mem_singleton.mp h1
      subst h2
      show cm.nextId ≠ cm.nextId + 1
      omega
  obtain ⟨meta, r2, h1, h2, h3, h4, h5, h6⟩ :=
    runSession_completed (addMessage cm "user" (jsTrim content) {}).2 frames
      endsErr hc1 hfresh hDone hTok
  rw [concatAll_frameTokens]
  refine ⟨meta, r2, ?_, ?_, h3, h4⟩
  · rw [sendMessage_valid_eq cm content siteUrl frames endsErr hText hTyping hUrl]
    exact h1
  · rw [h2]
    show (cm.messages ++ [userMessage cm content]) ++
        [finalAsst (cm.nextId + 1) cm.now (concatAll (liveTokens frames)) meta true] =
      cm.messages ++
        [userMessage cm content,
         finalAsst (cm.nextId + 1) cm.now (concatAll (liveTokens frames)) meta true]
    rw [List.append_assoc]
    rfl

/-- C1 witness: the specification's example — frames Hel, lo, DONE — run
from a fresh manager: the send completes with content Hello. -/
theorem C1_token_accumulation_witness :
    concatAll (frameTokens helFrames) = "Hello" ∧
    ((∀ m ∈ initChat.messages, m.id < initChat.nextId) ∧
     initChat.isTyping = false ∧ initChat.currentStreamingMessage = none ∧
     jsTrim "Hello?" ≠ "" ∧ isValidUrl "https://example.com" = true ∧
     hasDone helFrames = true ∧ (liveTokens helFrames).isEmpty = false) ∧
    ∃ meta r2,
      sendMessage initChat "Hello?" "https://example.com" helFrames false =
        (SendResult.ok (concatAll (frameTokens helFrames)) true, r2) ∧
      r2.messages = initChat.messages ++
        [userMessage initChat "Hello?",
         finalAsst (initChat.nextId + 1) initChat.now
           (concatAll (frameTokens helFrames)) meta true] ∧
      r2.currentStreamingMessage = none ∧ r2.isTyping = false :=
  ⟨by decide,
   ⟨by decide, rfl, rfl, by decide, by decide, by decide, by decide⟩,
   C1_token_accumulation initChat "Hello?" "https://example.com" helFrames false
     (by decide) rfl rfl (by decide) (by decide) (by decide) (by decide)⟩

/-- C3: a valid send over a stream that fails at the connection level ends
as a network failure when no truthy token was observed, and otherwise
resolves as interrupted (completed false) with the assistant message
keeping the text accumulated so far and isStreaming false. -/
theorem C3_interruption_keeps_text (cm : ChatManager)
    (content siteUrl : String) (frames : List Frame)
    (hIds : ∀ m ∈ cm.messages, m.id < cm.nextId)
    (hTyping : cm.isTyping = false)
    (hCsm : cm.currentStreamingMessage = none)
    (hText : jsTrim content ≠ "")
    (hUrl : isValidUrl siteUrl = true)
    (hDone : hasDone frames = false) :
    ((liveTokens frames).isEmpty = true →
      (sendMessage cm content siteUrl frames true).1 = SendResult.networkError) ∧
    ((liveTokens frames).isEmpty = false →
      ∃ meta r2,
        sendMessage cm content siteUrl frames true =
          (SendResult.ok (concatAll (frameTokens frames)) false, r2) ∧
        r2.messages = cm.messages ++
          [userMessage cm content,
           finalAsst (cm.nextId + 1) cm.now (concatAll (frameTokens frames)) meta false] ∧
        r2.currentStreamingMessage = none ∧ r2.isTyping = false) := by
  have hc1 : (addMessage cm "user" (jsTrim content) {}).2.currentStreamingMessage =
      none := hCsm
  have hfresh : ∀ m ∈ (addMessage cm "user" (jsTrim content) {}).2.messages,
      m.id ≠ (addMessage cm "user" (jsTrim content) {}).2.nextId := by
    have hm : (addMessage cm "user" (jsTrim content) {}).2.messages =
        cm.messages ++ [userMessage cm content] := rfl
    rw [hm]
    intro m hmem
    rcases List.mem_append.mp hmem with h1 | h1
    · have h2 := hIds m h1
      show m.id ≠ cm.nextId + 1
      omega
    · have h2 : m = userMessage cm content := List.mem_singleton.mp h1
      subst h2
      show cm.nextId ≠ cm.nextId + 1
      omega
  constructor
  · intro hTok
    rw [sendMessage_valid_eq cm content siteUrl frames true hText hTyping hUrl]
    exact runSession_failed (addMessage cm "user" (jsTrim content) {}).2 frames
      hc1 hfresh hDone hTok
  · intro hTok
    obtain ⟨meta, r2, h1, h2, h3, h4, h5, h6⟩ :=
      runSession_interrupted (addMessage cm "user" (jsTrim content) {}).2 frames
        hc1 hfresh hDone hTok
    rw [concatAll_frameTokens]
    refine ⟨meta, r2, ?_, ?_, h3, h4⟩
    · rw [sendMessage_valid_eq cm content siteUrl frames true hText hTyping hUrl]
      exact h1
    · rw [h2]
      show (cm.messages ++ [userMessage cm content]) ++
          [finalAsst (cm.nextId + 1) cm.now (concatAll (liveTokens frames)) meta false] =
        cm.messages ++
          [userMessage cm content,
           finalAsst (cm.nextId + 1) cm.now (concatAll (liveTokens frames)) meta false]
      rw [List.append_assoc]
      rfl

/-- C3 witness: the specification's example — a single Hi token then a
connection error resolves interrupted with content Hi — and the
no-token/error case rejecting with the network error. -/
theorem C3_interruption_keeps_text_witness :
    concatAll (frameTokens [Frame.payload (some "Hi") none]) = "Hi" ∧
    ((sendMessage initChat "Hi?" "https://example.com" [] true).1 =
      SendResult.networkError) ∧
    ∃ meta r2,
      sendMessage initChat "Hi?" "https://example.com"
          [Frame.payload (some "Hi") none] true =
        (SendResult.ok (concatAll (frameTokens [Frame.payload (some "Hi") none]))
          false, r2) ∧
      r2.messages = initChat.messages ++
        [userMessage initChat "Hi?",
         finalAsst (initChat.nextId + 1) initChat.now
           (concatAll (frameTokens [Frame.payload (some "Hi") none])) meta false] ∧
      r2.currentStreamingMessage = none ∧ r2.isTyping = false :=
  ⟨by decide,
   (C3_interruption_keeps_text initChat "Hi?" "https://example.com" []
     (by decide) rfl rfl (by decide) (by decide) (by decide)).1 (by decide),
   (C3_interruption_keeps_text initChat "Hi?" "https://example.com"
     [Frame.payload (some "Hi") none]
     (by decide) rfl rfl (by decide) (by decide) (by decide)).2 (by decide)⟩
